import Mathlib

/-!
Verification of the TON Trivia Battle backend (src/backend/app.py) against its
natural-language specification.

The backend is a small Flask app with three JSON endpoints:
  * GET /questions     (get_questions, app.py lines 162-175)
  * POST /result       (receive_result, app.py lines 178-267)
  * GET /leaderboard   (get_leaderboard, app.py lines 270-285)
plus a flat-file score store (load_scores / save_scores, lines 48-65).

This file gives a shallow embedding of that code and proves the frozen claims
about it.  Python values decoded from JSON are modelled by the inductive type
`Json`; Python ints are `Int`, Python floats are `ℚ` (the float literals in
the source, 0.15 and 1.0, are exactly representable, so no rounding concerns
arise in the quantities the claims speak about); a raised-and-uncaught Python
exception (surfacing as an HTTP 500) is modelled by `Except.error ()`.
-/

namespace TonTrivia

/-- A Python value as produced by `json.loads` / `request.get_json`:
`None`, `bool`, `int`, `float`, `str`, `list`, `dict` (string keys only,
as JSON object keys are strings).  Object fields keep their order and have
unique keys, as in a Python dict loaded from JSON. -/
inductive Json where
  | null : Json
  | bool (b : Bool) : Json
  | int (n : Int) : Json
  | float (q : ℚ) : Json
  | str (s : String) : Json
  | arr (elems : List Json) : Json
  | obj (fields : List (String × Json)) : Json

/-- First-match association-list lookup, the model of Python dict indexing
(`d[k]` / `k in d` / `d.get(k)`) for JSON-decoded dicts. -/
def lookupKey {α : Type} : List (String × α) → String → Option α
  | [], _ => none
  | (k, v) :: rest, key => if k = key then some v else lookupKey rest key

/-- Python truthiness (`bool(x)`) on JSON-decoded values: `None`, `False`,
`0`, `0.0`, `""`, `[]` and `{}` are falsy, everything else truthy. -/
def truthy : Json → Bool
  | .null => false
  | .bool b => b
  | .int n => !(n == 0)
  | .float q => !(q == 0)
  | .str s => !(s == "")
  | .arr elems => !elems.isEmpty
  | .obj fields => !fields.isEmpty

/-- Is the value a JSON object (a Python dict)? -/
def Json.isObj : Json → Bool
  | .obj _ => true
  | _ => false

/-- Python `x.get(key, dflt)`.  On a dict it returns the field or the
default; on any non-dict value the attribute access raises
`AttributeError` (an uncaught exception, hence HTTP 500), modelled as
`Except.error ()`. -/
def pyGet (j : Json) (key : String) (dflt : Json) : Except Unit Json :=
  match j with
  | .obj fields => .ok ((lookupKey fields key).getD dflt)
  | _ => .error ()

/-- Is `c` an ASCII digit? -/
def isDigitCh (c : Char) : Bool := 48 ≤ c.toNat && c.toNat ≤ 57

/-- Value of a digit string, most significant first (caller checks digits). -/
def digitsVal (cs : List Char) : Nat :=
  cs.foldl (fun a c => a * 10 + (c.toNat - 48)) 0

/-- Are all characters digits, and is there at least one? -/
def allDigits1 (cs : List Char) : Bool :=
  !cs.isEmpty && cs.all isDigitCh

/-- Model of Python `int(s)` on a string: optional sign then decimal digits,
else `ValueError`.  (Surrounding whitespace and underscore separators, which
CPython also accepts, are not modelled; no claim depends on them.) -/
def pyParseInt (s : String) : Option Int :=
  match s.data with
  | '-' :: rest => if allDigits1 rest then some (-(digitsVal rest : Int)) else none
  | '+' :: rest => if allDigits1 rest then some (digitsVal rest : Int) else none
  | cs => if allDigits1 cs then some (digitsVal cs : Int) else none

/-- Value of a fractional digit string: `fracVal [c1, c2] = 0.c1c2`. -/
def fracVal : List Char → ℚ
  | [] => 0
  | c :: rest => (((c.toNat - 48 : ℕ) : ℚ) + fracVal rest) / 10

/-- Model of Python `float(s)` on an unsigned string: digits with an
optional decimal point (`"7"`, `"7."`, `".5"`, `"1.25"`).  Exponents,
`inf` and `nan` are not modelled; no claim depends on them. -/
def pyParseFloatPos (cs : List Char) : Option ℚ :=
  let ip := cs.takeWhile isDigitCh
  let rest := cs.dropWhile isDigitCh
  match rest with
  | [] => if ip.isEmpty then none else some (digitsVal ip : ℚ)
  | '.' :: frac =>
      if ip.isEmpty && frac.isEmpty then none
      else if frac.all isDigitCh then some ((digitsVal ip : ℚ) + fracVal frac)
      else none
  | _ => none

/-- Model of Python `float(s)` on a string: optional sign then
`pyParseFloatPos`. -/
def pyParseFloat (s : String) : Option ℚ :=
  match s.data with
  | '-' :: rest => (pyParseFloatPos rest).map Neg.neg
  | '+' :: rest => pyParseFloatPos rest
  | cs => pyParseFloatPos cs

/-- Truncation toward zero, as Python `int()` applied to a float. -/
def ratTrunc (q : ℚ) : Int := if 0 ≤ q then q.floor else q.ceil

/-- Python `int(x)` on a JSON-decoded value: ints pass through, bools map
to 0/1, floats truncate, strings parse as integer literals; `None`, lists
and dicts raise `TypeError` (modelled as an error). -/
def pyInt : Json → Except Unit Int
  | .bool b => .ok (if b then 1 else 0)
  | .int n => .ok n
  | .float q => .ok (ratTrunc q)
  | .str s =>
      match pyParseInt s with
      | some n => .ok n
      | none => .error ()
  | _ => .error ()

/-- Python `float(x)` on a JSON-decoded value: ints and floats pass
through, bools map to 0/1, strings parse as float literals; `None`, lists
and dicts raise `TypeError` (modelled as an error). -/
def pyFloat : Json → Except Unit ℚ
  | .bool b => .ok (if b then 1 else 0)
  | .int n => .ok (n : ℚ)
  | .float q => .ok q
  | .str s =>
      match pyParseFloat s with
      | some q => .ok q
      | none => .error ()
  | _ => .error ()

/-- The coerced fields of a POST /result body (app.py lines 197-203). -/
structure MatchInput where
  wallet : Json
  userScore : Int
  oppScore : Int
  stake : ℚ
  category : Json

/-- `data = request.get_json(silent=True) or {}` (app.py line 197):
an unparseable or absent body gives `None` (modelled `none`), and any
falsy parse result is replaced by the empty dict. -/
def coerceBody : Option Json → Json
  | none => Json.obj []
  | some j => if truthy j then j else Json.obj []

/-- Field extraction and coercion of receive_result (app.py lines 198-203),
in source order: wallet, score, score.user, score.opponent, stake,
category.  An error models an uncaught `AttributeError` / `ValueError` /
`TypeError` from `.get` / `int()` / `float()`. -/
def parseData (data : Json) : Except Unit MatchInput := do
  let wallet ← pyGet data "wallet" Json.null
  let score ← pyGet data "score" (Json.obj [])
  let u ← pyGet score "user" (Json.int 0)
  let userScore ← pyInt u
  let o ← pyGet score "opponent" (Json.int 0)
  let oppScore ← pyInt o
  let st ← pyGet data "stake" (Json.float 1)
  let stake ← pyFloat st
  let category ← pyGet data "category" (Json.str "general")
  pure ⟨wallet, userScore, oppScore, stake, category⟩

/-- Lines 197-203 as one function of the optional parsed request body. -/
def parseBody (body : Option Json) : Except Unit MatchInput :=
  parseData (coerceBody body)

/-- The MatchInput produced from an empty body: all defaults. -/
def defaultInput : MatchInput :=
  { wallet := Json.null, userScore := 0, oppScore := 0, stake := 1,
    category := Json.str "general" }

/-- `COMMISSION_RATE = 0.15` (app.py line 35). -/
def COMMISSION_RATE : ℚ := 0.15

/-- Winner determination (app.py lines 206-211). -/
def winnerOf (userScore oppScore : Int) : String :=
  if userScore > oppScore then "user"
  else if userScore < oppScore then "opponent"
  else "tie"

/-- Commission (app.py lines 214-217): 0 unless there is a winner. -/
def commissionOf (winner : String) (stake : ℚ) : ℚ :=
  if winner ≠ "tie" then stake * COMMISSION_RATE else 0

/-- Net reward (app.py lines 215-218): 0 unless there is a winner. -/
def netRewardOf (winner : String) (stake : ℚ) : ℚ :=
  if winner ≠ "tie" then stake - stake * COMMISSION_RATE else 0

/-- The JSON document returned by receive_result (app.py lines 262-267). -/
structure Response where
  status : String
  winner : String
  commission : ℚ
  net_reward : ℚ
deriving DecidableEq

/-- The settlement outcome computed from the coerced input
(app.py lines 205-218 and 262-267). -/
def mkResponse (inp : MatchInput) : Response :=
  let w := winnerOf inp.userScore inp.oppScore
  { status := "ok", winner := w,
    commission := commissionOf w inp.stake,
    net_reward := netRewardOf w inp.stake }

/-- A single-quote character as a string, used by the Python rendering. -/
def sq : String := String.mk [Char.ofNat 39]

/-- Decimal rendering of a rational, standing in for Python float repr.
Its exact output is irrelevant to every claim; it only has to be some
fixed rendering function. -/
def ratStr (q : ℚ) : String := toString q.num ++ "/" ++ toString q.den

/-- Model of Python `repr(x)` on JSON-decoded values, used by `str` on
containers: `None` / `True` / `False`, quoted strings, bracketed lists and
braced dicts.  (String escaping inside quotes is not modelled; no claim
depends on the rendering's exact output.) -/
def pyRepr : Json → String
  | .null => "None"
  | .bool b => if b then "True" else "False"
  | .int n => toString n
  | .float q => ratStr q
  | .str s => sq ++ s ++ sq
  | .arr elems =>
      "[" ++ String.intercalate ", " (elems.attach.map (fun e => pyRepr e.1)) ++ "]"
  | .obj fields =>
      "\x7b" ++
        String.intercalate ", "
          (fields.attach.map (fun f => sq ++ f.1.1 ++ sq ++ ": " ++ pyRepr f.1.2))
        ++ "\x7d"
decreasing_by
  · have h1 := List.sizeOf_lt_of_mem e.2
    simp only [Json.arr.sizeOf_spec]
    omega
  · have h1 := List.sizeOf_lt_of_mem f.2
    have h2 : sizeOf f.1.2 < sizeOf f.1 := by
      obtain ⟨a, b⟩ := f.1
      simp only [Prod.mk.sizeOf_spec]
      omega
    simp only [Json.obj.sizeOf_spec]
    omega

/-- Model of Python `str(x)` on JSON-decoded values: a string renders as
itself, anything else as its repr (as `str(wallet)` does in app.py
line 244). -/
def pyStrTop : Json → String
  | .str s => s
  | j => pyRepr j

/-- `wallet["account"].get("address")` when the `account` field holds a
dict, else `None`: the value the code probes first (app.py lines
238-239). -/
def nestedAccountAddress (fields : List (String × Json)) : Json :=
  match lookupKey fields "account" with
  | some (Json.obj acc) => (lookupKey acc "address").getD Json.null
  | _ => Json.null

/-- Player identity extraction exactly as coded (app.py lines 233-246):
start from `None`; on a dict, take the nested account address if the
`account` field is a dict; if the id so far is falsy, take
`wallet.get("address") or wallet.get("publicKey")`; finally, if the id is
still falsy, fall back to `str(wallet)`. -/
def derive_player_id (wallet : Json) : Json :=
  let pid0 : Json :=
    match wallet with
    | .obj fields =>
        let pidA : Json := nestedAccountAddress fields
        if truthy pidA then pidA
        else
          let a := (lookupKey fields "address").getD Json.null
          let p := (lookupKey fields "publicKey").getD Json.null
          if truthy a then a else p
    | _ => Json.null
  if truthy pid0 then pid0 else Json.str (pyStrTop wallet)

/-- First present of the top-level "address" / "publicKey" fields, else
the string rendering of the whole value: the second and third bullet of
the specification's extraction rule (spec §6 / claim C4). -/
def specTopLevelOrRender (fields : List (String × Json)) (wallet : Json) : Json :=
  match lookupKey fields "address" with
  | some a => a
  | none =>
      match lookupKey fields "publicKey" with
      | some p => p
      | none => Json.str (pyStrTop wallet)

/-- The identity extraction rule as the specification words it (claim C4):
a nested account object with an "address" field wins outright whenever the
field is PRESENT; else the first PRESENT of top-level "address" /
"publicKey"; else the string rendering.  Presence, not truthiness, guards
each step here: this is the spec reading, to be compared with
`derive_player_id`. -/
def derive_player_id_spec (wallet : Json) : Json :=
  match wallet with
  | .obj fields =>
      match lookupKey fields "account" with
      | some (Json.obj acc) =>
          match lookupKey acc "address" with
          | some addr => addr
          | none => specTopLevelOrRender fields wallet
      | _ => specTopLevelOrRender fields wallet
  | _ => Json.str (pyStrTop wallet)

/-- The amended extraction rule (claim C4 corrected): the nested account
address is used only when truthy (non-empty); else the first TRUTHY of
top-level "address" / "publicKey"; else the string rendering of the whole
value. -/
def derive_player_id_amended (wallet : Json) : Json :=
  match wallet with
  | .obj fields =>
      if truthy (nestedAccountAddress fields) then nestedAccountAddress fields
      else if truthy ((lookupKey fields "address").getD Json.null) then
        (lookupKey fields "address").getD Json.null
      else if truthy ((lookupKey fields "publicKey").getD Json.null) then
        (lookupKey fields "publicKey").getD Json.null
      else Json.str (pyStrTop wallet)
  | _ => Json.str (pyStrTop wallet)

/-- The wallet value separating the coded extraction from the spec's
wording: a nested account address that is present but empty, next to a
top-level address. -/
def walletCE : Json :=
  Json.obj [("account", Json.obj [("address", Json.str "")]),
            ("address", Json.str "top")]

/-- A second separating wallet value: a present but empty top-level
address next to a publicKey. -/
def walletCE2 : Json :=
  Json.obj [("address", Json.str ""), ("publicKey", Json.str "pk")]

/-- The persistent score store (scores.json): a flat mapping from player
identifier to cumulative integer score, modelled as an ordered
association list with unique keys, as a Python dict loaded from JSON. -/
abbrev Scores := List (String × Int)

/-- Store lookup (`player_id in scores` / `scores[player_id]`). -/
def lookupScore : Scores → String → Option Int
  | [], _ => none
  | (k, v) :: rest, pid => if k = pid then some v else lookupScore rest pid

/-- Python dict assignment `scores[pid] = v`: overwrite in place, or
append a new key at the end (dicts keep insertion order). -/
def setScore : Scores → String → Int → Scores
  | [], pid, v => [(pid, v)]
  | (k, w) :: rest, pid, v =>
      if k = pid then (k, v) :: rest else (k, w) :: setScore rest pid v

/-- The scoreboard update of receive_result (app.py lines 255-257):
`if player_id not in scores: scores[player_id] = 0` then
`scores[player_id] += user_score`. -/
def update_scores (scores : Scores) (pid : String) (userScore : Int) : Scores :=
  let scores1 :=
    match lookupScore scores pid with
    | none => setScore scores pid 0
    | some _ => scores
  setScore scores1 pid ((lookupScore scores1 pid).getD 0 + userScore)

/-- The string `json.dump` writes for a dict key (app.py line 65): string
keys pass through, int / float / bool / None keys are stringified; lists
and dicts are unhashable, so using one as a dict key raises `TypeError`
already at the dict write (caught by the handler's try block). -/
def keyOf : Json → Except Unit String
  | .str s => .ok s
  | .int n => .ok (toString n)
  | .bool b => .ok (if b then "true" else "false")
  | .null => .ok "null"
  | .float q => .ok (ratStr q)
  | .arr _ => .error ()
  | .obj _ => .error ()

/-- The in-memory scores dict during one request: the string keys loaded
from the file, plus possibly the RAW derived player id -- the code indexes
the dict with `player_id` itself (app.py lines 255-257), and only
`json.dump` stringifies keys at save time. -/
abbrev MemScores := List (Json × Int)

/-- The loaded store as the in-memory dict: file keys are strings. -/
def memOfStore (store : Scores) : MemScores :=
  store.map (fun p => (Json.str p.1, p.2))

/-- Python `==` between dict keys as it decides `player_id in scores`.
Within one request every key except the raw id itself is a string, and in
Python none of these non-string values equals any string.  (Python's
numeric cross-type equalities, e.g. `True == 1`, never arise here, since
one side is always a string.) -/
def pyKeyEq (a b : Json) : Bool :=
  match a, b with
  | .str s, .str t => s == t
  | .int m, .int n => m == n
  | .bool c, .bool d => c == d
  | .null, .null => true
  | .float p, .float q => p == q
  | _, _ => false

/-- Dict lookup under Python key equality (`player_id in scores`). -/
def memLookup : MemScores → Json → Option Int
  | [], _ => none
  | (k, v) :: rest, pid => if pyKeyEq pid k then some v else memLookup rest pid

/-- Dict assignment `scores[player_id] = v` under Python key equality:
overwrite in place, or append a new key at the end. -/
def memSet : MemScores → Json → Int → MemScores
  | [], pid, v => [(pid, v)]
  | (k, w) :: rest, pid, v =>
      if pyKeyEq pid k then (k, v) :: rest else (k, w) :: memSet rest pid v

/-- The scoreboard update of receive_result on the in-memory dict under
the RAW derived player id (app.py lines 255-257):
`if player_id not in scores: scores[player_id] = 0` then
`scores[player_id] += user_score`. -/
def update_scores_mem (mem : MemScores) (pid : Json) (userScore : Int) : MemScores :=
  let mem1 :=
    match memLookup mem pid with
    | none => memSet mem pid 0
    | some _ => mem
  memSet mem1 pid ((memLookup mem1 pid).getD 0 + userScore)

/-- What `json.dump` writes (app.py lines 64-65): the dict entries in
order, each key stringified.  A repeated stringified key is emitted twice.
Unhashable keys never reach here -- the dict write raises first -- so the
`.getD ""` default is dead. -/
def dumpStore : MemScores → List (String × Int)
  | [] => []
  | (k, v) :: rest => ((keyOf k).toOption.getD "", v) :: dumpStore rest

/-- What the next `json.load` builds from the written document (app.py
lines 56-57): Python fills the dict by successive assignment, so a
repeated key keeps its first position and its last value. -/
def loadCollapse (entries : List (String × Int)) : Scores :=
  entries.foldl (fun d p => setScore d p.1 p.2) []

/-- The body of the try block around the store update (app.py lines
252-258), observed through the store file: update the in-memory dict
under the raw derived id, dump it (stringifying keys), and read the
durable result back the way the next load will.  `saveFails` models an
I/O error raised by `save_scores`; an unhashable id models the
`TypeError` raised by the dict write.  Either way the exception
propagates to the enclosing handler. -/
def persistResult (store : Scores) (pid : Json) (userScore : Int)
    (saveFails : Bool) : Except Unit Scores :=
  match keyOf pid with
  | .error _ => .error ()
  | .ok _ =>
      if saveFails then .error ()
      else .ok (loadCollapse (dumpStore (update_scores_mem (memOfStore store) pid userScore)))

/-- receive_result after input coercion (app.py lines 205-267): compute
the settlement response, attempt the score update, swallow any
persistence exception (`except Exception as e: print(...)`), and return
the response unconditionally. -/
def handle_result (inp : MatchInput) (store : Scores) (saveFails : Bool) :
    Response × Scores :=
  let resp := mkResponse inp
  let store2 :=
    match persistResult store (derive_player_id inp.wallet) inp.userScore saveFails with
    | .ok s => s
    | .error _ => store
  (resp, store2)

/-- The full POST /result route (app.py lines 178-267): coerce the body,
then handle.  An error is an uncaught Python exception, i.e. an HTTP 500
instead of the success response. -/
def receive_result (body : Option Json) (store : Scores) (saveFails : Bool) :
    Except Unit (Response × Scores) :=
  (parseBody body).map (fun inp => handle_result inp store saveFails)

/-- A trivia question as stored in the catalog (app.py lines 71-153). -/
structure Question where
  question : String
  options : List String
  correctIndex : Nat
deriving DecidableEq

/-- The "general" question pool (app.py lines 72-98). -/
def general_questions : List Question :=
  [⟨"What is the capital city of France?",
    ["Berlin", "Madrid", "Paris", "Rome"], 2⟩,
   ⟨"Which planet is known as the Red Planet?",
    ["Earth", "Mars", "Venus", "Jupiter"], 1⟩,
   ⟨"Who wrote the play 'Romeo and Juliet'?",
    ["William Shakespeare", "Jane Austen", "Mark Twain", "Charles Dickens"], 0⟩,
   ⟨"How many continents are there on Earth?",
    ["Five", "Six", "Seven", "Eight"], 2⟩,
   ⟨"What gas do plants absorb from the atmosphere?",
    ["Oxygen", "Nitrogen", "Carbon Dioxide", "Hydrogen"], 2⟩]

/-- The "football" question pool (app.py lines 99-125). -/
def football_questions : List Question :=
  [⟨"Which country won the FIFA World Cup in 2018?",
    ["Brazil", "France", "Germany", "Argentina"], 1⟩,
   ⟨"Who is known as 'El Pibe de Oro' in football?",
    ["Lionel Messi", "Diego Maradona", "Cristiano Ronaldo", "Pelé"], 1⟩,
   ⟨"Which club does Mohamed Salah play for (as of 2024)?",
    ["Liverpool", "Real Madrid", "Chelsea", "Paris Saint-Germain"], 0⟩,
   ⟨"How long is a standard football match (excluding injury time)?",
    ["80 minutes", "90 minutes", "100 minutes", "120 minutes"], 1⟩,
   ⟨"Which country has won the most UEFA Champions League titles?",
    ["England", "Spain", "Italy", "Germany"], 1⟩]

/-- The "crypto" question pool (app.py lines 126-152). -/
def crypto_questions : List Question :=
  [⟨"What was the first cryptocurrency ever created?",
    ["Ethereum", "Litecoin", "Bitcoin", "Dogecoin"], 2⟩,
   ⟨"Who is credited as the creator of Bitcoin?",
    ["Vitalik Buterin", "Satoshi Nakamoto", "Charlie Lee", "Jed McCaleb"], 1⟩,
   ⟨"Which blockchain platform introduced smart contracts?",
    ["Bitcoin", "Ripple", "Ethereum", "Cardano"], 2⟩,
   ⟨"What does NFT stand for?",
    ["New Finance Token", "Non-Fungible Token", "Network Fee Transaction",
     "Non-Financial Transaction"], 1⟩,
   ⟨"Which consensus algorithm does Bitcoin use?",
    ["Proof of Stake", "Proof of Authority", "Proof of Work",
     "Delegated Proof of Stake"], 2⟩]

/-- `CATEGORIES` (app.py lines 71-153): the category-name-to-pool table. -/
def CATEGORIES : List (String × List Question) :=
  [("general", general_questions),
   ("football", football_questions),
   ("crypto", crypto_questions)]

/-- ASCII lowercasing of one character, as Python `str.lower` acts on the
ASCII category names. -/
def lowerCh (c : Char) : Char :=
  if 65 ≤ c.toNat && c.toNat ≤ 90 then Char.ofNat (c.toNat + 32) else c

/-- Model of Python `str.lower()` (ASCII range; the catalog keys and every
category string a claim quantifies over are ASCII). -/
def lowerStr (s : String) : String := String.mk (s.data.map lowerCh)

/-- Category resolution of get_questions (app.py lines 171-172): lowercase
the requested category (absent means "general"), and fall back to the
"general" pool for any name not in the catalog. -/
def resolve_pool (category : Option String) : List Question :=
  (lookupKey CATEGORIES (lowerStr (category.getD "general"))).getD general_questions

/-- Model of `random.sample(pool, n)` (app.py line 174): selection without
replacement driven by a stream of numbers from the random source; each
step removes the chosen position from the pool.  Whatever numbers the
stream holds, the chosen index is reduced mod the remaining pool size, so
every stream gives a valid sample. -/
def sample {α : Type} : Nat → List α → List Nat → List α
  | 0, _, _ => []
  | n + 1, pool, seed =>
      match pool with
      | [] => []
      | a :: as =>
          let i := (seed.headD 0) % (a :: as).length
          (a :: as).getD i a :: sample n ((a :: as).eraseIdx i) seed.tail

/-- GET /questions (app.py lines 162-175): resolve the category, then
sample min(5, pool size) questions without replacement. -/
def get_questions (category : Option String) (seed : List Nat) : List Question :=
  let pool := resolve_pool category
  sample (min 5 pool.length) pool seed

/-- Lexicographic order on character lists by code point, the model of
Python string comparison used by the leaderboard sort key. -/
def charListLe : List Char → List Char → Bool
  | [], _ => true
  | _ :: _, [] => false
  | a :: as, b :: bs =>
      a.toNat < b.toNat || (a.toNat == b.toNat && charListLe as bs)

/-- The leaderboard sort key (app.py line 279): `(-score, player)`, i.e.
score descending, then player identifier ascending. -/
def lbLeB (a b : String × Int) : Bool :=
  b.2 < a.2 || (a.2 == b.2 && charListLe a.1.data b.1.data)

/-- `lbLeB` as a decidable relation for the sort. -/
def lbLe (a b : String × Int) : Prop := lbLeB a b = true

instance : DecidableRel lbLe := fun a b =>
  inferInstanceAs (Decidable (lbLeB a b = true))

/-- One row of the leaderboard response (app.py line 283). -/
structure LBEntry where
  player : String
  score : Int
  rank : Nat
deriving DecidableEq

/-- GET /leaderboard, given the loaded scores (app.py lines 277-285):
sort by `(-score, player)` -- Python's sorted is stable, and insertion
sort is the same stable sort -- then attach 1-based ranks in order,
each row getting the next integer. -/
def get_leaderboard (scores : Scores) : List LBEntry :=
  ((List.insertionSort lbLe scores).enum.map
    (fun p => { player := p.2.1, score := p.2.2, rank := p.1 + 1 }))

/-- The states the scores.json file can be in when a request arrives:
absent, unreadable or unparseable, or holding a parsed JSON document. -/
inductive FileState where
  | missing : FileState
  | corrupt : FileState
  | wellFormed (content : Json) : FileState

/-- load_scores (app.py lines 48-59): return the parsed file content; any
read or parse error (missing file, corrupt content) is caught and yields
the empty mapping. -/
def load_scores : FileState → Json
  | .wellFormed j => j
  | .missing => Json.obj []
  | .corrupt => Json.obj []

/-- The loaded entries as integer scores.  The sort key negates each
stored value, so a non-integer value makes the sort raise `TypeError`
(modelled as an error; bool and float values, which Python would also
negate, are not distinguished -- no claim touches them). -/
def intEntries : List (String × Json) → Except Unit Scores
  | [] => .ok []
  | (k, Json.int n) :: rest => (intEntries rest).map (fun s => (k, n) :: s)
  | _ => .error ()

/-- The full GET /leaderboard route (app.py lines 270-285): load with
fail-soft semantics, then sort and rank.  A loaded document that is not a
mapping, or carries non-integer scores, raises when iterated or sorted
(an uncaught exception, HTTP 500). -/
def get_leaderboard_route (fs : FileState) : Except Unit (List LBEntry) :=
  match load_scores fs with
  | Json.obj fields => (intEntries fields).map get_leaderboard
  | _ => .error ()

end TonTrivia

namespace TonTrivia

/-- C1: for every pair of integers (userScore, opponentScore), submitResult
determines the winner by three-way comparison: strictly greater gives
"user", strictly less gives "opponent", equal gives "tie"
(app.py lines 206-211). -/
theorem submitResult_winner_threeway (u o : Int) :
    (u > o → winnerOf u o = "user")
    ∧ (u < o → winnerOf u o = "opponent")
    ∧ (u = o → winnerOf u o = "tie") := by
  refine ⟨fun h => ?_, fun h => ?_, fun h => ?_⟩
  · simp [winnerOf, h]
  · simp [winnerOf, h, lt_asymm h]
  · simp [winnerOf, h]

/-- Witness for C1 at the concrete score pairs (3,1), (1,3), (2,2). -/
theorem submitResult_winner_threeway_spot :
    winnerOf 3 1 = "user" ∧ winnerOf 1 3 = "opponent" ∧ winnerOf 2 2 = "tie" :=
  ⟨(submitResult_winner_threeway 3 1).1 (by decide),
   (submitResult_winner_threeway 1 3).2.1 (by decide),
   (submitResult_winner_threeway 2 2).2.2 rfl⟩

/-- C2: ties settle with zero commission and zero net reward; any other
winner pays commission stake × 0.15 and nets stake minus commission, so
commission + netReward = stake (app.py lines 213-218, exact in ℚ). -/
theorem submitResult_commission_split (w : String) (stake : ℚ) :
    (w = "tie" → commissionOf w stake = 0 ∧ netRewardOf w stake = 0)
    ∧ (w ≠ "tie" →
        commissionOf w stake = stake * (15 / 100)
        ∧ netRewardOf w stake = stake - commissionOf w stake
        ∧ commissionOf w stake + netRewardOf w stake = stake) := by
  constructor
  · intro h
    simp [commissionOf, netRewardOf, h]
  · intro h
    refine ⟨?_, ?_, ?_⟩
    · simp only [commissionOf, if_pos h]
      norm_num [COMMISSION_RATE]
    · simp only [commissionOf, netRewardOf, if_pos h]
    · simp only [commissionOf, netRewardOf, if_pos h]
      ring

/-- Witness for C2 at winner "user" with stake 2. -/
theorem submitResult_commission_split_spot :
    commissionOf "user" 2 = 2 * (15 / 100)
    ∧ netRewardOf "user" 2 = 2 - commissionOf "user" 2
    ∧ commissionOf "user" 2 + netRewardOf "user" 2 = 2 :=
  (submitResult_commission_split "user" 2).2 (by decide)

/-- Writing a score always makes it the one found for that player. -/
theorem lookupScore_setScore (scores : Scores) (pid : String) (v : Int) :
    lookupScore (setScore scores pid v) pid = some v := by
  induction scores with
  | nil => simp [setScore, lookupScore]
  | cons kv rest ih =>
      obtain ⟨k, w⟩ := kv
      by_cases h : k = pid
      · simp [setScore, lookupScore, h]
      · simp [setScore, lookupScore, h, ih]

/-- The scoreboard update adds exactly `userScore` to the stored value,
treating an absent player as 0. -/
theorem update_scores_lookup (scores : Scores) (pid : String) (u : Int) :
    lookupScore (update_scores scores pid u) pid
      = some ((lookupScore scores pid).getD 0 + u) := by
  unfold update_scores
  cases h : lookupScore scores pid with
  | none => simp [h, lookupScore_setScore]
  | some v => simp [h, lookupScore_setScore]

/-- A key of the store after a write was a key before, or is the written
one. -/
theorem mem_map_fst_setScore (scores : Scores) (pid k : String) (v : Int)
    (h : k ∈ (setScore scores pid v).map Prod.fst) :
    k ∈ scores.map Prod.fst ∨ k = pid := by
  induction scores with
  | nil =>
      simp [setScore] at h
      exact Or.inr h
  | cons kv rest ih =>
      obtain ⟨a, b⟩ := kv
      by_cases hap : a = pid
      · simp only [setScore, if_pos hap, List.map_cons, List.mem_cons] at h
        simp only [List.map_cons, List.mem_cons]
        rcases h with h | h
        · exact Or.inl (Or.inl h)
        · exact Or.inl (Or.inr h)
      · simp only [setScore, if_neg hap, List.map_cons, List.mem_cons] at h
        simp only [List.map_cons, List.mem_cons]
        rcases h with h | h
        · exact Or.inl (Or.inl h)
        · rcases ih h with h2 | h2
          · exact Or.inl (Or.inr h2)
          · exact Or.inr h2

/-- Writing a row preserves key uniqueness. -/
theorem setScore_keys_nodup (scores : Scores) (pid : String) (v : Int)
    (h : (scores.map Prod.fst).Nodup) :
    ((setScore scores pid v).map Prod.fst).Nodup := by
  induction scores with
  | nil => simp [setScore]
  | cons kv rest ih =>
      obtain ⟨a, b⟩ := kv
      simp only [List.map_cons, List.nodup_cons] at h
      by_cases hap : a = pid
      · simp only [setScore, if_pos hap, List.map_cons, List.nodup_cons]
        exact h
      · simp only [setScore, if_neg hap, List.map_cons, List.nodup_cons]
        refine ⟨?_, ih h.2⟩
        intro hmem
        rcases mem_map_fst_setScore rest pid a v hmem with h2 | h2
        · exact h.1 h2
        · exact hap h2

/-- The scoreboard update preserves key uniqueness. -/
theorem update_scores_keys_nodup (scores : Scores) (pid : String) (u : Int)
    (h : (scores.map Prod.fst).Nodup) :
    ((update_scores scores pid u).map Prod.fst).Nodup := by
  unfold update_scores
  cases hl : lookupScore scores pid with
  | none =>
      simp only [hl]
      exact setScore_keys_nodup _ _ _ (setScore_keys_nodup _ _ _ h)
  | some v =>
      simp only [hl]
      exact setScore_keys_nodup _ _ _ h

/-- Writing an absent key appends it. -/
theorem setScore_notMem (scores : Scores) (k : String) (v : Int)
    (h : ¬ k ∈ scores.map Prod.fst) : setScore scores k v = scores ++ [(k, v)] := by
  induction scores with
  | nil => rfl
  | cons kv rest ih =>
      obtain ⟨a, b⟩ := kv
      simp only [List.map_cons, List.mem_cons, not_or] at h
      have hak : ¬ a = k := fun e => h.1 e.symm
      simp only [setScore, if_neg hak, ih h.2, List.cons_append]

/-- Building a dict by successive assignment from entries whose keys are
fresh and pairwise distinct just appends them. -/
theorem foldl_setScore_append :
    ∀ (l acc : Scores), (l.map Prod.fst).Nodup →
      (∀ k ∈ l.map Prod.fst, ¬ k ∈ acc.map Prod.fst) →
      l.foldl (fun d p => setScore d p.1 p.2) acc = acc ++ l
  | [], acc, _, _ => by simp
  | (k, v) :: rest, acc, hnd, hdisj => by
      simp only [List.map_cons, List.nodup_cons] at hnd
      have hk : ¬ k ∈ acc.map Prod.fst := hdisj k (by simp)
      simp only [List.foldl_cons]
      rw [setScore_notMem acc k v hk,
        foldl_setScore_append rest (acc ++ [(k, v)]) hnd.2 ?_]
      · simp
      · intro x hx hmem
        simp only [List.map_append, List.mem_append] at hmem
        rcases hmem with h | h
        · exact hdisj x (by simp [hx]) h
        · simp only [List.map_cons, List.map_nil, List.mem_cons,
            List.not_mem_nil, or_false] at h
          exact hnd.1 (h ▸ hx)

/-- Reloading a document with unique keys rebuilds it unchanged. -/
theorem loadCollapse_eq_self (l : Scores) (h : (l.map Prod.fst).Nodup) :
    loadCollapse l = l := by
  have h2 := foldl_setScore_append l [] h (by simp)
  simpa [loadCollapse] using h2

/-- Looking up a string id in the loaded in-memory dict is the store
lookup. -/
theorem memLookup_memOfStore (store : Scores) (s : String) :
    memLookup (memOfStore store) (Json.str s) = lookupScore store s := by
  induction store with
  | nil => rfl
  | cons kv rest ih =>
      obtain ⟨k, v⟩ := kv
      by_cases h : k = s
      · subst h
        simp [memOfStore, memLookup, pyKeyEq, lookupScore]
      · have h2 : (s == k) = false := by
          simp only [beq_eq_false_iff_ne, ne_eq]
          exact fun e => h e.symm
        have hstep : memLookup (memOfStore ((k, v) :: rest)) (Json.str s)
            = memLookup (memOfStore rest) (Json.str s) := by
          simp [memOfStore, memLookup, pyKeyEq, h2]
        rw [hstep, ih]
        simp [lookupScore, h]

/-- Writing under a string id in the loaded in-memory dict is the store
write. -/
theorem memSet_memOfStore (store : Scores) (s : String) (v : Int) :
    memSet (memOfStore store) (Json.str s) v = memOfStore (setScore store s v) := by
  induction store with
  | nil => rfl
  | cons kv rest ih =>
      obtain ⟨k, w⟩ := kv
      by_cases h : k = s
      · subst h
        simp [memOfStore, memSet, pyKeyEq, setScore]
      · have h2 : (s == k) = false := by
          simp only [beq_eq_false_iff_ne, ne_eq]
          exact fun e => h e.symm
        have hstep : memSet (memOfStore ((k, w) :: rest)) (Json.str s) v
            = (Json.str k, w) :: memSet (memOfStore rest) (Json.str s) v := by
          simp [memOfStore, memSet, pyKeyEq, h2]
        rw [hstep, ih]
        simp [memOfStore, setScore, h]

/-- Under a string id the in-memory update mirrors the string-keyed
accumulation. -/
theorem update_scores_mem_str (store : Scores) (s : String) (u : Int) :
    update_scores_mem (memOfStore store) (Json.str s) u
      = memOfStore (update_scores store s u) := by
  unfold update_scores_mem update_scores
  rw [memLookup_memOfStore]
  cases h : lookupScore store s with
  | none =>
      simp only [h, memSet_memOfStore, memLookup_memOfStore, lookupScore_setScore]
  | some v =>
      simp only [h, memSet_memOfStore, memLookup_memOfStore]

/-- Dumping the loaded dict writes the store back unchanged. -/
theorem dumpStore_memOfStore (store : Scores) :
    dumpStore (memOfStore store) = store := by
  induction store with
  | nil => rfl
  | cons kv rest ih =>
      obtain ⟨k, v⟩ := kv
      have hstep : dumpStore (memOfStore ((k, v) :: rest))
          = (k, v) :: dumpStore (memOfStore rest) := rfl
      rw [hstep, ih]

/-- For a string-valued derived id (and a store with unique keys, as every
JSON-loaded store has) the whole persistence pipeline is exactly the
string-keyed accumulation. -/
theorem persistResult_str (store : Scores) (s : String) (u : Int)
    (hnd : (store.map Prod.fst).Nodup) :
    persistResult store (Json.str s) u false = .ok (update_scores store s u) := by
  simp only [persistResult, keyOf]
  rw [update_scores_mem_str, dumpStore_memOfStore,
    loadCollapse_eq_self _ (update_scores_keys_nodup store s u hnd)]
  simp

/-- The handler's store effect for a string-valued derived id. -/
theorem handle_result_str (inp : MatchInput) (store : Scores) (s : String)
    (hnd : (store.map Prod.fst).Nodup)
    (hpid : derive_player_id inp.wallet = Json.str s) :
    (handle_result inp store false).2 = update_scores store s inp.userScore := by
  simp only [handle_result, hpid, persistResult_str store s inp.userScore hnd]

/-- C3 counterexample: for a wallet with the numeric address 7 the derived
player id is the raw int 7.  The dict update creates an entry under that
raw key, separate from the loaded string key "7", and json.dump then
writes the key "7" twice, so the reload keeps only the LAST value: against
the store 7 maps-to 3, a submission with userScore 1 leaves the stored
score 1 -- reset, not increased to 4; likewise submitting 3 then 5 on a
fresh store leaves 5, not 8.  The claim is false at these inputs. -/
theorem submitResult_score_reset_counterexample :
    derive_player_id (Json.obj [("address", Json.int 7)]) = Json.int 7
    ∧ lookupScore
        (handle_result
          { defaultInput with
            wallet := Json.obj [("address", Json.int 7)]
            userScore := 1 }
          [("7", 3)] false).2 "7" = some 1
    ∧ lookupScore
        (handle_result
          { defaultInput with
            wallet := Json.obj [("address", Json.int 7)]
            userScore := 5 }
          (handle_result
            { defaultInput with
              wallet := Json.obj [("address", Json.int 7)]
              userScore := 3 }
            [] false).2 false).2 "7" = some 5
    ∧ (3 : Int) + 1 ≠ 1 ∧ (3 : Int) + 5 ≠ 5 := by
  refine ⟨rfl, ?_, ?_, by decide, by decide⟩
  · rfl
  · rfl

/-- C3 amended: for every successful result submission whose DERIVED
PLAYER IDENTIFIER IS A STRING (the normal case; §3 of the spec types
playerId as a string) and every store with unique keys, the stored
cumulative score under that identifier increases by exactly the submitted
userScore regardless of win/loss/tie outcome, an absent player being
created implicitly from 0; for nonnegative userScore the stored score
never decreases; and two submissions with userScore 3 then 5 leave a
final stored score of 8.  (For a truthy non-string derived identifier the
dict is updated under the raw key while the file holds its stringified
twin, and the dump collapses the two keeping the last value, so the
stored score is replaced by the new increment instead of accumulated --
the counterexample.) -/
theorem submitResult_score_accumulates_strkey
    (inp : MatchInput) (store : Scores) (s : String)
    (hnd : (store.map Prod.fst).Nodup)
    (hpid : derive_player_id inp.wallet = Json.str s) :
    lookupScore (handle_result inp store false).2 s
      = some ((lookupScore store s).getD 0 + inp.userScore)
    ∧ (0 ≤ inp.userScore →
        (lookupScore store s).getD 0
          ≤ (lookupScore (handle_result inp store false).2 s).getD 0)
    ∧ (handle_result inp store false).2 = update_scores store s inp.userScore
    ∧ (∀ inp2 : MatchInput, derive_player_id inp2.wallet = Json.str s →
        inp.userScore = 3 → inp2.userScore = 5 →
        lookupScore
          (handle_result inp2 (handle_result inp [] false).2 false).2 s = some 8) := by
  have h1 := handle_result_str inp store s hnd hpid
  refine ⟨?_, ?_, h1, ?_⟩
  · rw [h1, update_scores_lookup]
  · intro hu
    rw [h1, update_scores_lookup]
    simp
    omega
  · intro inp2 hpid2 h3 h5
    have he : (handle_result inp [] false).2 = update_scores [] s 3 := by
      rw [handle_result_str inp [] s (by simp) hpid, h3]
    have hnd2 : ((update_scores [] s 3).map Prod.fst).Nodup :=
      update_scores_keys_nodup [] s 3 (by simp)
    rw [he, handle_result_str inp2 _ s hnd2 hpid2, h5, update_scores_lookup,
      update_scores_lookup]
    norm_num [lookupScore]

/-- Witness for C3 (amended) at the string wallet "w" on a fresh store:
one submission of 3 accumulates from 0, and a second submission of 5
leaves 8. -/
theorem submitResult_score_accumulates_strkey_spot :
    lookupScore
        (handle_result { defaultInput with wallet := Json.str "w", userScore := 3 }
          [] false).2 "w"
      = some ((lookupScore [] "w").getD 0 + 3)
    ∧ lookupScore
        (handle_result { defaultInput with wallet := Json.str "w", userScore := 5 }
          (handle_result { defaultInput with wallet := Json.str "w", userScore := 3 }
            [] false).2 false).2 "w" = some 8 :=
  ⟨(submitResult_score_accumulates_strkey
      { defaultInput with wallet := Json.str "w", userScore := 3 } [] "w"
      (by simp) rfl).1,
   (submitResult_score_accumulates_strkey
      { defaultInput with wallet := Json.str "w", userScore := 3 } [] "w"
      (by simp) rfl).2.2.2
     { defaultInput with wallet := Json.str "w", userScore := 5 } rfl rfl rfl⟩

/-- C4 counterexample: on `walletCE`, whose nested account address is
present but empty, the code skips the falsy nested address and takes the
top-level address "top", while the rule as the specification words it
(presence, not truthiness) takes the empty nested address; likewise on
`walletCE2` the code skips the present-but-empty top-level address and
takes the publicKey "pk", while the spec's "first present" takes the
empty address.  The claim is false at these inputs. -/
theorem derive_player_id_spec_counterexample :
    derive_player_id walletCE ≠ derive_player_id_spec walletCE
    ∧ derive_player_id walletCE2 ≠ derive_player_id_spec walletCE2 := by
  constructor
  · intro h
    have h1 : derive_player_id walletCE = Json.str "top" := rfl
    have h2 : derive_player_id_spec walletCE = Json.str "" := rfl
    rw [h1, h2] at h
    exact absurd (Json.str.inj h) (by decide)
  · intro h
    have h1 : derive_player_id walletCE2 = Json.str "pk" := rfl
    have h2 : derive_player_id_spec walletCE2 = Json.str "" := rfl
    rw [h1, h2] at h
    exact absurd (Json.str.inj h) (by decide)

/-- C4 amended: the nested account address is used only when truthy
(non-empty); else the first truthy of the top-level "address" /
"publicKey" fields; else the string rendering of the entire value.  With
truthiness in place of presence, the coded extraction agrees with the
rule on every wallet value. -/
theorem derive_player_id_amended_correct (wallet : Json) :
    derive_player_id wallet = derive_player_id_amended wallet := by
  cases wallet with
  | obj fields =>
      by_cases hA : truthy (nestedAccountAddress fields)
      · simp [derive_player_id, derive_player_id_amended, hA]
      · by_cases ha : truthy ((lookupKey fields "address").getD Json.null)
        · simp [derive_player_id, derive_player_id_amended, hA, ha]
        · by_cases hp : truthy ((lookupKey fields "publicKey").getD Json.null)
          · simp [derive_player_id, derive_player_id_amended, hA, ha, hp]
          · simp [derive_player_id, derive_player_id_amended, hA, ha, hp]
  | null => rfl
  | bool b => rfl
  | int n => rfl
  | float q => rfl
  | str s => rfl
  | arr elems => rfl

/-- C5 counterexample: a wrong-typed "score" field (an integer where a
dict is expected) is not coerced to a default: `score.get("user", 0)`
raises `AttributeError`, an uncaught exception, so the request is
answered with an HTTP 500 error, not a success response. -/
theorem submitResult_input_rejection_counterexample :
    parseBody (some (Json.obj [("score", Json.int 5)])) = .error () := rfl

/-- An object body passes the falsy-body coercion unchanged: the only
falsy object is the empty one, which the coercion maps to itself. -/
theorem coerceBody_obj (fields : List (String × Json)) :
    coerceBody (some (Json.obj fields)) = Json.obj fields := by
  cases fields with
  | nil => rfl
  | cons f rest => rfl

/-- What a successful parse of an object body says about each component:
wallet and category are the present field or its default, the score
fields come from a dict score value (present or the default empty dict),
and the stake coerces from the present field or its default 1.0. -/
theorem parseBody_obj_ok (fields : List (String × Json)) (inp : MatchInput)
    (h : parseBody (some (Json.obj fields)) = .ok inp) :
    inp.wallet = (lookupKey fields "wallet").getD Json.null
    ∧ inp.category = (lookupKey fields "category").getD (Json.str "general")
    ∧ (∃ sf : List (String × Json),
        (lookupKey fields "score").getD (Json.obj []) = Json.obj sf
        ∧ pyInt ((lookupKey sf "user").getD (Json.int 0)) = .ok inp.userScore
        ∧ pyInt ((lookupKey sf "opponent").getD (Json.int 0)) = .ok inp.oppScore)
    ∧ pyFloat ((lookupKey fields "stake").getD (Json.float 1)) = .ok inp.stake := by
  rw [parseBody, coerceBody_obj] at h
  simp only [parseData, pyGet, Bind.bind, Except.bind] at h
  cases hsc : (lookupKey fields "score").getD (Json.obj []) with
  | obj sf =>
      rw [hsc] at h
      dsimp only at h
      cases hu : pyInt ((lookupKey sf "user").getD (Json.int 0)) with
      | error e => rw [hu] at h; simp at h
      | ok u =>
          rw [hu] at h
          dsimp only at h
          cases ho : pyInt ((lookupKey sf "opponent").getD (Json.int 0)) with
          | error e => rw [ho] at h; simp at h
          | ok o =>
              rw [ho] at h
              dsimp only at h
              cases hst : pyFloat ((lookupKey fields "stake").getD (Json.float 1)) with
              | error e => rw [hst] at h; simp at h
              | ok st =>
                  rw [hst] at h
                  simp only [pure, Except.pure, Except.ok.injEq] at h
                  subst h
                  exact ⟨rfl, rfl, ⟨sf, rfl, hu, ho⟩, rfl⟩
  | null => rw [hsc] at h; simp at h
  | bool b => rw [hsc] at h; simp at h
  | int n => rw [hsc] at h; simp at h
  | float q => rw [hsc] at h; simp at h
  | str s => rw [hsc] at h; simp at h
  | arr elems => rw [hsc] at h; simp at h

/-- C5 amended: missing input is coerced to defaults and never rejected --
an absent, unparseable or falsy body acts as the empty object and yields
the all-defaults input; any object body without "score" and "stake"
fields parses successfully whatever its other fields, the missing ones
defaulted (scores 0, stake 1.0, wallet None and category "general" when
absent); and in every successfully parsed object body each absent field
individually takes its default.  But a wrong-TYPED present field is not
coerced: an object body whose "score" field holds a non-dict raises an
uncaught exception, so the request is answered with an error status. -/
theorem submitResult_input_coercion_amended :
    parseBody none = .ok defaultInput
    ∧ (∀ b : Json, truthy b = false → parseBody (some b) = .ok defaultInput)
    ∧ (∀ fields : List (String × Json),
        lookupKey fields "score" = none →
        lookupKey fields "stake" = none →
        ∃ inp : MatchInput,
          parseBody (some (Json.obj fields)) = .ok inp
          ∧ inp.userScore = 0 ∧ inp.oppScore = 0 ∧ inp.stake = 1
          ∧ (lookupKey fields "wallet" = none → inp.wallet = Json.null)
          ∧ (lookupKey fields "category" = none → inp.category = Json.str "general"))
    ∧ (∀ (fields sf : List (String × Json)) (inp : MatchInput),
        parseBody (some (Json.obj fields)) = .ok inp →
        (lookupKey fields "wallet" = none → inp.wallet = Json.null)
        ∧ (lookupKey fields "score" = none → inp.userScore = 0 ∧ inp.oppScore = 0)
        ∧ (lookupKey fields "score" = some (Json.obj sf) →
            (lookupKey sf "user" = none → inp.userScore = 0)
            ∧ (lookupKey sf "opponent" = none → inp.oppScore = 0))
        ∧ (lookupKey fields "stake" = none → inp.stake = 1)
        ∧ (lookupKey fields "category" = none → inp.category = Json.str "general"))
    ∧ (∀ (fields : List (String × Json)) (v : Json),
        lookupKey fields "score" = some v → v.isObj = false →
        parseBody (some (Json.obj fields)) = .error ()) := by
  refine ⟨rfl, fun b hb => ?_, fun fields hsc hst => ?_, fun fields sf inp h => ?_,
    fun fields v hsc hv => ?_⟩
  · simp only [parseBody, coerceBody, hb, Bool.false_eq_true, if_false]
    rfl
  · refine ⟨⟨(lookupKey fields "wallet").getD Json.null, 0, 0, 1,
      (lookupKey fields "category").getD (Json.str "general")⟩,
      ?_, rfl, rfl, rfl, fun hw => by simp [hw], fun hc => by simp [hc]⟩
    rw [parseBody, coerceBody_obj]
    simp only [parseData, pyGet, Bind.bind, Except.bind, hsc, hst, Option.getD_none]
    rfl
  · obtain ⟨hw, hc, ⟨sf2, hsf2, hu, ho⟩, hstk⟩ := parseBody_obj_ok fields inp h
    refine ⟨fun hwn => by simp [hw, hwn], fun hscn => ?_, fun hsc2 => ?_,
      fun hstn => ?_, fun hcn => by simp [hc, hcn]⟩
    · rw [hscn] at hsf2
      simp only [Option.getD_none, Json.obj.injEq] at hsf2
      rw [← hsf2] at hu ho
      simp only [lookupKey, Option.getD_none, pyInt, Except.ok.injEq] at hu ho
      exact ⟨hu.symm, ho.symm⟩
    · rw [hsc2] at hsf2
      simp only [Option.getD_some, Json.obj.injEq] at hsf2
      rw [← hsf2] at hu ho
      constructor
      · intro hun
        rw [hun] at hu
        simp only [Option.getD_none, pyInt, Except.ok.injEq] at hu
        exact hu.symm
      · intro hon
        rw [hon] at ho
        simp only [Option.getD_none, pyInt, Except.ok.injEq] at ho
        exact ho.symm
    · rw [hstn] at hstk
      simp only [Option.getD_none, pyFloat, Except.ok.injEq] at hstk
      exact hstk.symm
  · rw [parseBody, coerceBody_obj]
    simp only [parseData, pyGet, Bind.bind, Except.bind, hsc, Option.getD_some]
    cases v with
    | obj sf => simp [Json.isObj] at hv
    | null => rfl
    | bool b => rfl
    | int n => rfl
    | float q => rfl
    | str s => rfl
    | arr elems => rfl

/-- Witness for C5 (amended): the falsy body `[]` parses to all defaults;
the object body holding only a wallet parses with score, stake and
category defaulted; a parsed body with a present score.user but absent
score.opponent and stake defaults exactly the absent ones; and the
wrong-typed body with "score": "x" is answered with an error. -/
theorem submitResult_input_coercion_amended_spot :
    parseBody (some (Json.arr [])) = .ok defaultInput
    ∧ (∃ inp : MatchInput,
        parseBody (some (Json.obj [("wallet", Json.str "w")])) = .ok inp
        ∧ inp.userScore = 0 ∧ inp.oppScore = 0 ∧ inp.stake = 1
        ∧ (lookupKey [("wallet", Json.str "w")] "wallet" = none → inp.wallet = Json.null)
        ∧ (lookupKey [("wallet", Json.str "w")] "category" = none →
            inp.category = Json.str "general"))
    ∧ ((⟨Json.null, 2, 0, 1, Json.str "general"⟩ : MatchInput).stake = 1
        ∧ (⟨Json.null, 2, 0, 1, Json.str "general"⟩ : MatchInput).oppScore = 0)
    ∧ parseBody (some (Json.obj [("score", Json.str "x")])) = .error () :=
  ⟨submitResult_input_coercion_amended.2.1 (Json.arr []) rfl,
   submitResult_input_coercion_amended.2.2.1 [("wallet", Json.str "w")] rfl rfl,
   ⟨(submitResult_input_coercion_amended.2.2.2.1
       [("score", Json.obj [("user", Json.int 2)])] [("user", Json.int 2)]
       ⟨Json.null, 2, 0, 1, Json.str "general"⟩ rfl).2.2.2.1 rfl,
    ((submitResult_input_coercion_amended.2.2.2.1
       [("score", Json.obj [("user", Json.int 2)])] [("user", Json.int 2)]
       ⟨Json.null, 2, 0, 1, Json.str "general"⟩ rfl).2.2.1 rfl).2 rfl⟩,
   submitResult_input_coercion_amended.2.2.2.2 [("score", Json.str "x")]
     (Json.str "x") rfl rfl⟩

/-- C8: the POST /result response after input coercion is always the
computed settlement outcome with status "ok", identical whatever the
current store contents and whether or not the persistence attempt fails:
the try/except around load-update-save swallows every persistence error
(app.py lines 252-267). -/
theorem submitResult_persistence_swallowed (inp : MatchInput)
    (storeA storeB : Scores) (failA failB : Bool) :
    (handle_result inp storeA failA).1 = mkResponse inp
    ∧ (handle_result inp storeA failA).1.status = "ok"
    ∧ (handle_result inp storeA failA).1 = (handle_result inp storeB failB).1 :=
  ⟨rfl, rfl, rfl⟩

/-- C10: the settlement response depends only on the user score, opponent
score and stake: two submissions agreeing on those three produce
identical responses, whatever their wallet and category values, the store
contents, and the persistence outcome. -/
theorem submitResult_response_hyperproperty
    (i1 i2 : MatchInput) (s1 s2 : Scores) (f1 f2 : Bool)
    (hu : i1.userScore = i2.userScore) (ho : i1.oppScore = i2.oppScore)
    (hs : i1.stake = i2.stake) :
    (handle_result i1 s1 f1).1 = (handle_result i2 s2 f2).1 := by
  show mkResponse i1 = mkResponse i2
  simp [mkResponse, hu, ho, hs]

/-- A sample never exceeds the requested size nor the pool. -/
theorem sample_length {α : Type} :
    ∀ (n : Nat) (pool : List α) (seed : List Nat),
      (sample n pool seed).length = min n pool.length
  | 0, _, _ => by simp [sample]
  | n + 1, [], _ => by simp [sample]
  | n + 1, a :: as, seed => by
      have hi : (seed.headD 0) % (a :: as).length < (a :: as).length :=
        Nat.mod_lt _ (by simp)
      simp only [sample, List.length_cons]
      rw [sample_length n _ seed.tail, List.length_eraseIdx]
      simp only [List.length_cons]
      have hi2 : seed.headD 0 % (as.length + 1) < as.length + 1 :=
        Nat.mod_lt _ (Nat.succ_pos _)
      rw [if_pos hi2]
      omega

/-- Every sampled element comes from the pool. -/
theorem sample_mem {α : Type} :
    ∀ (n : Nat) (pool : List α) (seed : List Nat) (x : α),
      x ∈ sample n pool seed → x ∈ pool
  | 0, _, _, _, hx => by simp [sample] at hx
  | n + 1, [], _, _, hx => by simp [sample] at hx
  | n + 1, a :: as, seed, x, hx => by
      have hi : (seed.headD 0) % (a :: as).length < (a :: as).length :=
        Nat.mod_lt _ (by simp)
      simp only [sample, List.mem_cons] at hx
      rcases hx with h | h
      · rw [h, List.getD_eq_getElem _ _ hi]
        exact List.getElem_mem hi
      · exact List.eraseIdx_subset _ _ (sample_mem n _ seed.tail x h)

/-- Sampling from a duplicate-free pool yields a duplicate-free result:
each step removes the chosen position before recursing. -/
theorem sample_nodup {α : Type} :
    ∀ (n : Nat) (pool : List α) (seed : List Nat),
      pool.Nodup → (sample n pool seed).Nodup
  | 0, _, _, _ => by simp [sample]
  | n + 1, [], _, _ => by simp [sample]
  | n + 1, a :: as, seed, hnd => by
      have hi : (seed.headD 0) % (a :: as).length < (a :: as).length :=
        Nat.mod_lt _ (by simp)
      simp only [sample]
      refine List.nodup_cons.mpr
        ⟨?_, sample_nodup n _ seed.tail (((a :: as).eraseIdx_sublist _).nodup hnd)⟩
      intro hmem
      have hmem2 := sample_mem n _ seed.tail _ hmem
      rw [List.getD_eq_getElem _ _ hi] at hmem2
      rcases List.mem_eraseIdx_iff_getElem.mp hmem2 with ⟨j, hj, hji, hval⟩
      exact hji (hnd.getElem_inj_iff.mp hval)

/-- The resolved pool is always one of the three catalog pools. -/
theorem resolve_pool_cases (category : Option String) :
    resolve_pool category = general_questions
    ∨ resolve_pool category = football_questions
    ∨ resolve_pool category = crypto_questions := by
  unfold resolve_pool CATEGORIES
  simp only [lookupKey]
  split_ifs <;> simp

/-- The general pool repeats no question. -/
theorem general_questions_nodup : general_questions.Nodup := by decide

/-- The football pool repeats no question. -/
theorem football_questions_nodup : football_questions.Nodup := by decide

/-- The crypto pool repeats no question. -/
theorem crypto_questions_nodup : crypto_questions.Nodup := by decide

/-- C6: get_questions lowercases the category, resolves unknown or absent
categories to "general", never fails, and returns exactly
min(5, pool size) questions sampled without replacement from the resolved
pool: no duplicates, and every returned question belongs to the pool
(app.py lines 162-175). -/
theorem getQuestions_properties (category : Option String) (seed : List Nat) :
    (get_questions category seed).length = min 5 (resolve_pool category).length
    ∧ (get_questions category seed).Nodup
    ∧ (∀ q ∈ get_questions category seed, q ∈ resolve_pool category)
    ∧ resolve_pool none = general_questions
    ∧ (∀ s : String, lookupKey CATEGORIES (lowerStr s) = none →
        resolve_pool (some s) = general_questions) := by
  refine ⟨?_, ?_, fun q hq => sample_mem _ _ _ q hq, rfl, fun s hs => ?_⟩
  · show (sample (min 5 (resolve_pool category).length)
        (resolve_pool category) seed).length = _
    rw [sample_length]
    rw [min_assoc, min_self]
  · rcases resolve_pool_cases category with h | h | h
    · exact sample_nodup _ _ _ (by rw [h]; exact general_questions_nodup)
    · exact sample_nodup _ _ _ (by rw [h]; exact football_questions_nodup)
    · exact sample_nodup _ _ _ (by rw [h]; exact crypto_questions_nodup)
  · simp [resolve_pool, hs]

/-- Witness for C6: an unknown category ("Art") resolves to the general
pool, and the question sampled first under a zero random stream indeed
belongs to the resolved pool. -/
theorem getQuestions_properties_spot :
    Question.mk "What is the capital city of France?"
        ["Berlin", "Madrid", "Paris", "Rome"] 2 ∈ resolve_pool (some "Art")
    ∧ resolve_pool (some "Art") = general_questions :=
  ⟨(getQuestions_properties (some "Art") [0, 0, 0, 0, 0]).2.2.1 _ (by decide),
   (getQuestions_properties (some "Art") []).2.2.2.2 "Art" rfl⟩

/-- Code-point order on character lists is total. -/
theorem charListLe_total : ∀ as bs : List Char,
    charListLe as bs = true ∨ charListLe bs as = true
  | [], _ => Or.inl rfl
  | _ :: _, [] => Or.inr rfl
  | a :: as, b :: bs => by
      simp only [charListLe, Bool.or_eq_true, Bool.and_eq_true, beq_iff_eq,
        decide_eq_true_eq]
      rcases Nat.lt_trichotomy a.toNat b.toNat with h | h | h
      · exact Or.inl (Or.inl h)
      · rcases charListLe_total as bs with ih | ih
        · exact Or.inl (Or.inr ⟨h, ih⟩)
        · exact Or.inr (Or.inr ⟨h.symm, ih⟩)
      · exact Or.inr (Or.inl h)

/-- Code-point order on character lists is transitive. -/
theorem charListLe_trans : ∀ as bs cs : List Char,
    charListLe as bs = true → charListLe bs cs = true → charListLe as cs = true
  | [], _, _, _, _ => rfl
  | _ :: _, [], _, h, _ => by simp [charListLe] at h
  | _ :: _, _ :: _, [], _, h => by simp [charListLe] at h
  | a :: as, b :: bs, c :: cs, h1, h2 => by
      simp only [charListLe, Bool.or_eq_true, Bool.and_eq_true, beq_iff_eq,
        decide_eq_true_eq] at h1 h2 ⊢
      rcases h1 with h1 | ⟨h1e, h1r⟩ <;> rcases h2 with h2 | ⟨h2e, h2r⟩
      · exact Or.inl (by omega)
      · exact Or.inl (by omega)
      · exact Or.inl (by omega)
      · exact Or.inr ⟨by omega, charListLe_trans as bs cs h1r h2r⟩

instance : IsTotal (String × Int) lbLe :=
  ⟨fun a b => by
    simp only [lbLe, lbLeB, Bool.or_eq_true, Bool.and_eq_true, beq_iff_eq,
      decide_eq_true_eq]
    rcases lt_trichotomy a.2 b.2 with h | h | h
    · exact Or.inr (Or.inl h)
    · rcases charListLe_total a.1.data b.1.data with hc | hc
      · exact Or.inl (Or.inr ⟨h, hc⟩)
      · exact Or.inr (Or.inr ⟨h.symm, hc⟩)
    · exact Or.inl (Or.inl h)⟩

instance : IsTrans (String × Int) lbLe :=
  ⟨fun a b c hab hbc => by
    simp only [lbLe, lbLeB, Bool.or_eq_true, Bool.and_eq_true, beq_iff_eq,
      decide_eq_true_eq] at hab hbc ⊢
    rcases hab with h1 | ⟨h1e, h1r⟩ <;> rcases hbc with h2 | ⟨h2e, h2r⟩
    · exact Or.inl (by omega)
    · exact Or.inl (by omega)
    · exact Or.inl (by omega)
    · exact Or.inr ⟨by omega, charListLe_trans _ _ _ h1r h2r⟩⟩

/-- C7: the leaderboard is a permutation of the stored scores sorted by
score descending with ties broken by player identifier ascending, carries
dense sequential 1-based ranks (ties do not share a rank), and on the
scores a:10, b:20, c:20 returns b (rank 1), c (rank 2), a (rank 3)
(app.py lines 277-285). -/
theorem getLeaderboard_sorted_ranked (scores : Scores) :
    ((get_leaderboard scores).map (fun e => (e.player, e.score))).Perm scores
    ∧ (get_leaderboard scores).map LBEntry.rank = List.range' 1 scores.length
    ∧ ((scores.map Prod.fst).Nodup →
        (get_leaderboard scores).Pairwise (fun a b =>
          b.score < a.score
          ∨ (a.score = b.score ∧ charListLe a.player.data b.player.data = true
              ∧ a.player ≠ b.player)))
    ∧ get_leaderboard [("a", 10), ("b", 20), ("c", 20)]
        = [⟨"b", 20, 1⟩, ⟨"c", 20, 2⟩, ⟨"a", 10, 3⟩] := by
  have hmap : (get_leaderboard scores).map (fun e => (e.player, e.score))
      = List.insertionSort lbLe scores := by
    simp only [get_leaderboard, List.map_map]
    have heta : ((fun e : LBEntry => (e.player, e.score)) ∘
        fun p : ℕ × String × Int =>
          ({ player := p.2.1, score := p.2.2, rank := p.1 + 1 } : LBEntry))
        = Prod.snd := by
      funext p
      exact Prod.mk.eta
    rw [heta, List.enum_map_snd]
  refine ⟨hmap ▸ List.perm_insertionSort lbLe scores, ?_, fun hnd => ?_, by decide⟩
  · have hlen : (List.insertionSort lbLe scores).length = scores.length :=
      (List.perm_insertionSort lbLe scores).length_eq
    simp only [get_leaderboard, List.map_map]
    rw [← hlen]
    have hrank : (LBEntry.rank ∘
        fun p : ℕ × String × Int =>
          ({ player := p.2.1, score := p.2.2, rank := p.1 + 1 } : LBEntry))
        = ((fun i => i + 1) ∘ (Prod.fst : ℕ × String × Int → ℕ)) := rfl
    rw [hrank, ← List.map_map, List.enum_map_fst, List.range'_eq_map_range]
    simp [Nat.add_comm]
  · have hsorted : List.Pairwise lbLe (List.insertionSort lbLe scores) :=
      List.sorted_insertionSort lbLe scores
    have hndL : ((List.insertionSort lbLe scores).map Prod.fst).Nodup :=
      (((List.perm_insertionSort lbLe scores).map Prod.fst).symm).nodup hnd
    have hpw_ne : List.Pairwise (fun a b : String × Int => a.1 ≠ b.1)
        (List.insertionSort lbLe scores) := List.pairwise_map.mp hndL
    have himp : List.Pairwise (fun a b : String × Int =>
        b.2 < a.2 ∨ (a.2 = b.2 ∧ charListLe a.1.data b.1.data = true ∧ a.1 ≠ b.1))
        (List.insertionSort lbLe scores) := by
      refine (hsorted.and hpw_ne).imp ?_
      intro a b hab
      obtain ⟨hle, hne⟩ := hab
      simp only [lbLe, lbLeB, Bool.or_eq_true, Bool.and_eq_true, beq_iff_eq,
        decide_eq_true_eq] at hle
      rcases hle with h | ⟨he, hc⟩
      · exact Or.inl h
      · exact Or.inr ⟨he, hc, hne⟩
    refine List.pairwise_map.mpr ?_
    have h2 : List.Pairwise (fun p q : ℕ × String × Int =>
        (fun a b : String × Int =>
          b.2 < a.2 ∨ (a.2 = b.2 ∧ charListLe a.1.data b.1.data = true ∧ a.1 ≠ b.1))
          p.2 q.2)
        (List.insertionSort lbLe scores).enum := by
      refine (List.pairwise_map (f := Prod.snd)
        (R := fun a b : String × Int =>
          b.2 < a.2 ∨ (a.2 = b.2 ∧ charListLe a.1.data b.1.data = true ∧ a.1 ≠ b.1))
        (l := (List.insertionSort lbLe scores).enum)).mp ?_
      rw [List.enum_map_snd]
      exact himp
    exact h2

/-- Witness for C7 at the scores a:10, b:20, c:20 of the claim. -/
theorem getLeaderboard_sorted_ranked_spot :
    (([("a", 10), ("b", 20), ("c", 20)] : Scores).map Prod.fst).Nodup
    ∧ (get_leaderboard [("a", 10), ("b", 20), ("c", 20)]).Pairwise (fun a b =>
        b.score < a.score
        ∨ (a.score = b.score ∧ charListLe a.player.data b.player.data = true
            ∧ a.player ≠ b.player)) :=
  ⟨by decide,
   (getLeaderboard_sorted_ranked [("a", 10), ("b", 20), ("c", 20)]).2.2.1 (by decide)⟩

/-- C9: load_scores fails soft -- a missing or unparseable scores file
yields the empty mapping, never an error -- and the leaderboard of a
fresh system (no store file) is the empty list, not an error
(app.py lines 48-59 and 270-285). -/
theorem loadScores_fails_soft :
    load_scores FileState.missing = Json.obj []
    ∧ load_scores FileState.corrupt = Json.obj []
    ∧ get_leaderboard_route FileState.missing = .ok [] :=
  ⟨rfl, rfl, rfl⟩

/-- Witness for C10 at two concrete submissions differing in wallet,
category, store contents and persistence outcome. -/
theorem submitResult_response_hyperproperty_spot :
    (handle_result
        { defaultInput with wallet := Json.str "alice", userScore := 4, oppScore := 1 }
        [] false).1
      = (handle_result
          { wallet := Json.null, userScore := 4, oppScore := 1, stake := 1,
            category := Json.str "crypto" }
          [("x", 7)] true).1 :=
  submitResult_response_hyperproperty _ _ _ _ _ _ rfl rfl rfl

end TonTrivia
